import Mathlib

/-!
Shallow embedding of `matrix-gatekeeper` (`src/main.py`), a Matrix bot that
gates space access behind rules acceptance: it watches a room for checkmark
reactions on tracked rules messages, invites reactors to a space, counts
joins, reposts the rules every N joins, and sends welcome/tips DMs.

The embedding models the event-processing core as a pure step function over
an explicit state (the closures' mutable variables in `main`), with the
transport's side effects recorded as an emitted list of `Action`s and the
transport's responses supplied as explicit outcome arguments.
-/

namespace Gatekeeper

/-- The first variation-selector code point stripped by `is_checkmark`
(U+FE0E, text presentation). -/
def vs15 : Char := '︎'

/-- The second variation-selector code point stripped by `is_checkmark`
(U+FE0F, emoji presentation). -/
def vs16 : Char := '️'

/-- Embeds `is_checkmark` (src/main.py lines 54-57).
Python `key.replace(vs, "")` with a single-character needle deletes every
occurrence of that code point, i.e. filters it out of the code-point
sequence; after both replacements the result is tested for membership in
the set of the three canonical glyphs U+2705, U+2714, U+2611. -/
def is_checkmark (key : String) : Bool :=
  let stripped := (key.data.filter (fun c => c != vs15)).filter (fun c => c != vs16)
  stripped == ['✅'] || stripped == ['✔'] || stripped == ['☑']

/-- The configuration read from the environment at module load, plus the bot's
own identity (`client.user_id`, obtained from `whoami`). Only the fields the
event-processing core branches on are included; the HTML variants and
homeserver/token fields never influence control flow or state. -/
structure Config where
  botUserId : String
  targetRoomId : String
  targetEventId : String
  inviteSpaceId : String
  repostEveryNJoins : Int
  rulesText : String
  welcomeText : String
  tipsText : String
deriving DecidableEq, Repr

/-- The mutable closure state of `main` (src/main.py lines 98-102):
`invited_users`, `welcomed_users`, `rules_event_ids`, `join_count`,
`initial_sync_done`. Python sets are modelled as duplicate-free lists
mutated only through `setInsert`. -/
structure GKState where
  invitedUsers : List String
  welcomedUsers : List String
  rulesEventIds : List String
  joinCount : Int
  initialSyncDone : Bool
deriving DecidableEq, Repr

/-- Python `set.add`: insert if not already present. -/
def setInsert (x : String) (l : List String) : List String :=
  if x ∈ l then l else x :: l

/-- Side-effecting transport commands issued by the core, in issue order:
the rules repost (`room_send` of RULES_TEXT to the target room), the welcome
DM, the invite call (`room_invite`), and the tips DM. -/
inductive Action where
  | repostRules
  | welcomeDM (userId : String)
  | inviteCall (userId : String)
  | tipsDM (userId : String)
deriving DecidableEq, Repr, BEq

/-- Outcome of `client.room_invite` as observed by `handle_invite`:
either the call returned a response — `returned (some msg)` models a nio
error response carrying a `message` attribute, `returned none` a success
response without one — or it raised an exception with message `msg`. -/
inductive InviteOutcome where
  | returned (message : Option String)
  | raised (message : String)
deriving DecidableEq, Repr

/-- Outcome of `client.room_send` as observed by `post_rules`: a
`RoomSendResponse` carrying the new event id, or an error response. -/
inductive SendOutcome where
  | sent (eventId : String)
  | failed
deriving DecidableEq, Repr

/-- ASCII-faithful model of Python `str.lower()` (the argument of the
`"already in the room" in str(e).lower()` test is compared against an
all-ASCII needle). -/
def pyLower (s : String) : String :=
  ⟨s.data.map Char.toLower⟩

/-- Python's `needle in haystack` substring test on code-point sequences. -/
def substrOf (needle : List Char) : List Char → Bool
  | [] => needle.isEmpty
  | c :: rest => needle.isPrefixOf (c :: rest) || substrOf needle rest

/-- The needle string-matched against the lowered exception text in
`handle_invite` (src/main.py line 169). -/
def alreadyInRoomNeedle : List Char := "already in the room".data

/-- Embeds `send_tips_dm` (src/main.py lines 142-151): skipped for the bot
itself and when TIPS_TEXT is empty; the DM's own success or failure does not
touch any state. -/
def send_tips_dm (cfg : Config) (userId : String) : List Action :=
  if userId = cfg.botUserId then []
  else if cfg.tipsText = "" then []
  else [.tipsDM userId]

/-- Embeds `send_welcome_dm` (src/main.py lines 128-140): skipped for the
bot, for already-welcomed users, and when WELCOME_TEXT is empty; the user is
added to `welcomed_users` before the DM is attempted, and the DM's failure
changes nothing. -/
def send_welcome_dm (cfg : Config) (st : GKState) (userId : String) :
    GKState × List Action :=
  if userId = cfg.botUserId then (st, [])
  else if userId ∈ st.welcomedUsers then (st, [])
  else if cfg.welcomeText = "" then (st, [])
  else ({ st with welcomedUsers := setInsert userId st.welcomedUsers },
        [.welcomeDM userId])

/-- Embeds `post_rules` (src/main.py lines 104-126): a no-op warning when
RULES_TEXT is empty; otherwise the rules are sent to the target room and, on
a successful send, the new event id joins `rules_event_ids`. -/
def post_rules (cfg : Config) (st : GKState) (outcome : SendOutcome) :
    GKState × List Action :=
  if cfg.rulesText = "" then (st, [])
  else
    match outcome with
    | .sent eid =>
        ({ st with rulesEventIds := setInsert eid st.rulesEventIds }, [.repostRules])
    | .failed => (st, [.repostRules])

/-- Embeds `handle_invite` (src/main.py lines 153-176): early return for the
bot and for already-invited users; otherwise `room_invite` is called. A
returned response — with or without a `message` attribute, i.e. success or
nio error response — falls through to the ledger add; a raised exception
whose lowered text contains "already in the room" also falls through; any
other exception returns before the ledger add. On fall-through the user is
added to `invited_users` and the tips DM is attempted. -/
def handle_invite (cfg : Config) (st : GKState) (userId : String)
    (outcome : InviteOutcome) : GKState × List Action :=
  if userId = cfg.botUserId then (st, [])
  else if userId ∈ st.invitedUsers then (st, [])
  else
    let treatAsSuccess :=
      match outcome with
      | .returned _ => true
      | .raised msg => substrOf alreadyInRoomNeedle (pyLower msg).data
    if treatAsSuccess then
      ({ st with invitedUsers := setInsert userId st.invitedUsers },
       .inviteCall userId :: send_tips_dm cfg userId)
    else (st, [.inviteCall userId])

/-- A `nio.RoomMemberEvent`: the fields `on_member_event` can observe.
`prevMembership` (nio's `prev_membership`) distinguishes a profile-only
change — an m.room.member event with membership "join" whose previous
membership was already "join" — from a genuine new join. -/
structure MemberEvent where
  sender : String
  membership : String
  prevMembership : Option String
deriving DecidableEq, Repr

/-- A `nio.ReactionEvent`: `getattr(event, "reacts_to", None)` and
`getattr(event, "key", "")` become an `Option String` and a `String`. -/
structure ReactionEvent where
  sender : String
  reactsTo : Option String
  key : String
deriving DecidableEq, Repr

/-- A `nio.UnknownEvent` as read by `on_unknown_event`: its `type` and the
`event_id` / `key` entries of `content["m.relates_to"]` (dict `get`, so both
are optional; the key defaults to `""`). -/
structure UnknownEvent where
  type : String
  sender : String
  relatesToEventId : Option String
  relatesToKey : Option String
deriving DecidableEq, Repr

/-- The body of `on_member_event` past its four guards (src/main.py lines
190-197): increment `join_count`; when the counter reaches the threshold,
reset it to zero and repost the rules; then attempt the welcome DM. -/
def member_join_body (cfg : Config) (st : GKState) (ev : MemberEvent)
    (repost : SendOutcome) : GKState × List Action :=
  let newCount := st.joinCount + 1
  let pr :=
    if newCount ≥ cfg.repostEveryNJoins then
      post_rules cfg { st with joinCount := 0 } repost
    else ({ st with joinCount := newCount }, [])
  let wl := send_welcome_dm cfg pr.1 ev.sender
  (wl.1, pr.2 ++ wl.2)

/-- Embeds `on_member_event` (src/main.py lines 178-197): return during the
initial sync, for foreign rooms, for non-"join" membership values, and for
the bot's own events; otherwise run the counting/repost/welcome body. -/
def on_member_event (cfg : Config) (st : GKState) (roomId : String)
    (ev : MemberEvent) (repost : SendOutcome) : GKState × List Action :=
  if !st.initialSyncDone then (st, [])
  else if roomId ≠ cfg.targetRoomId then (st, [])
  else if ev.membership ≠ "join" then (st, [])
  else if ev.sender = cfg.botUserId then (st, [])
  else member_join_body cfg st ev repost

/-- Embeds `on_reaction_event` (src/main.py lines 199-211): foreign rooms are
ignored; `reacts_to` must be a tracked rules event id (a missing attribute,
`None`, is never in the set); the key must classify as a checkmark; then
`handle_invite` runs for the sender. -/
def on_reaction_event (cfg : Config) (st : GKState) (roomId : String)
    (ev : ReactionEvent) (inv : InviteOutcome) : GKState × List Action :=
  if roomId ≠ cfg.targetRoomId then (st, [])
  else
    match ev.reactsTo with
    | none => (st, [])
    | some target =>
        if target ∉ st.rulesEventIds then (st, [])
        else if !is_checkmark ev.key then (st, [])
        else handle_invite cfg st ev.sender inv

/-- Embeds `on_unknown_event` (src/main.py lines 213-226), the fallback for
older nio versions surfacing reactions as `UnknownEvent`: foreign rooms and
non-`m.reaction` types are ignored; the related event id must be tracked;
the related key (defaulting to `""`) must classify as a checkmark; then
`handle_invite` runs for the sender. -/
def on_unknown_event (cfg : Config) (st : GKState) (roomId : String)
    (ev : UnknownEvent) (inv : InviteOutcome) : GKState × List Action :=
  if roomId ≠ cfg.targetRoomId then (st, [])
  else if ev.type ≠ "m.reaction" then (st, [])
  else
    match ev.relatesToEventId with
    | none => (st, [])
    | some target =>
        if target ∉ st.rulesEventIds then (st, [])
        else
          let reactionKey := match ev.relatesToKey with
            | some k => k
            | none => ""
          if !is_checkmark reactionKey then (st, [])
          else handle_invite cfg st ev.sender inv

/-- One delivered occurrence the event loop reacts to: a member event, a
structured reaction event, or an untyped fallback event — each bundled with
the transport outcome its handler would observe — plus the completion of the
initial full-state sync (src/main.py lines 237-238), which flips
`initial_sync_done`. -/
inductive Event where
  | member (roomId : String) (ev : MemberEvent) (repost : SendOutcome)
  | reaction (roomId : String) (ev : ReactionEvent) (inv : InviteOutcome)
  | unknown (roomId : String) (ev : UnknownEvent) (inv : InviteOutcome)
  | syncComplete
deriving DecidableEq, Repr

/-- Dispatch of one event to its registered callback (src/main.py lines
228-230), or the `initial_sync_done = True` assignment after the first sync. -/
def step (cfg : Config) (st : GKState) : Event → GKState × List Action
  | .member roomId ev repost => on_member_event cfg st roomId ev repost
  | .reaction roomId ev inv => on_reaction_event cfg st roomId ev inv
  | .unknown roomId ev inv => on_unknown_event cfg st roomId ev inv
  | .syncComplete => ({ st with initialSyncDone := true }, [])

/-- The closure state as initialised in `main` (src/main.py lines 98-102):
empty ledgers, `rules_event_ids = {TARGET_EVENT_ID}`, zero join count, and
the initial sync not yet done. -/
def initState (cfg : Config) : GKState :=
  { invitedUsers := []
    welcomedUsers := []
    rulesEventIds := [cfg.targetEventId]
    joinCount := 0
    initialSyncDone := false }

/-- Process a list of events in delivery order, one at a time to completion
(the single-threaded cooperative loop), accumulating emitted actions. -/
def run (cfg : Config) : GKState → List Event → GKState × List Action
  | st, [] => (st, [])
  | st, e :: rest =>
      let s1 := step cfg st e
      let r := run cfg s1.1 rest
      (r.1, s1.2 ++ r.2)

/-- Number of rules reposts among the emitted actions. -/
def countReposts (acts : List Action) : Nat :=
  acts.countP (fun a => a == .repostRules)

/-- Number of invite transport calls for a given user among the emitted
actions. -/
def countInvites (u : String) (acts : List Action) : Nat :=
  acts.countP (fun a => a == .inviteCall u)

/-- Number of tips DMs for a given user among the emitted actions. -/
def countTips (u : String) (acts : List Action) : Nat :=
  acts.countP (fun a => a == .tipsDM u)

/-- A qualifying join in the sense of the Membership Tracker: a member event
for the gated room reporting membership "join" whose sender is not the bot.
Used as the hypothesis shape for the repost-cadence statement. -/
def qualifyingJoin (cfg : Config) : Event → Prop
  | .member roomId ev _ =>
      roomId = cfg.targetRoomId ∧ ev.membership = "join" ∧ ev.sender ≠ cfg.botUserId
  | _ => False

/-- A concrete configuration for the concrete runs below. -/
def cfg0 : Config :=
  { botUserId := "@bot:x"
    targetRoomId := "!r:x"
    targetEventId := "$e0"
    inviteSpaceId := "!s:x"
    repostEveryNJoins := 10
    rulesText := "rules"
    welcomeText := "welcome"
    tipsText := "tips" }

/-- `cfg0` with repost threshold 2, for exercising the repost cadence. -/
def cfgT2 : Config :=
  { cfg0 with repostEveryNJoins := 2 }

/-- A concrete non-bot user. -/
def alice : String := "@alice:x"

/-- A second concrete non-bot user. -/
def bob : String := "@bob:x"

/-- A concrete transport-exception text that does not mention
"already in the room". -/
def timeoutMsg : String := "connection timeout"

/-- A concrete invite-rejection text that does not mention
"already in the room". -/
def forbiddenMsg : String := "M_FORBIDDEN: not allowed to invite"

/-- A concrete exception text that does contain "already in the room"
(after lowering). -/
def alreadyMsg : String := "@alice:x is Already in the Room."

/-- A concrete event id distinct from `cfg0.targetEventId`. -/
def otherEventId : String := "$other"

/-- The gated room id of `cfg0`. -/
def roomR : String := "!r:x"

/-- The initially tracked rules event id of `cfg0`. -/
def eid0 : String := "$e0"

/-- A fresh event id for a reposted rules message. -/
def eid1 : String := "$e1"

/-- The state reached from `initState cfg0` once the initial sync completes:
identical except that `initial_sync_done` is set. -/
def st_synced : GKState :=
  { invitedUsers := []
    welcomedUsers := []
    rulesEventIds := [eid0]
    joinCount := 0
    initialSyncDone := true }

/-- `st_synced` with `alice` already in the invited ledger. -/
def stInvited : GKState :=
  { st_synced with invitedUsers := [alice] }

/-- A checkmark reaction by `alice` on the tracked rules message of `cfg0`,
with a chosen invite outcome. -/
def aliceReactEv : ReactionEvent :=
  { sender := alice, reactsTo := some eid0, key := "✅" }

/-- `aliceReactEv` wrapped as a delivered event with a chosen invite
outcome. -/
def aliceReact (inv : InviteOutcome) : Event :=
  .reaction roomR aliceReactEv inv

/-- A checkmark reaction by `alice` targeting an untracked message id. -/
def untrackedReact : ReactionEvent :=
  { sender := alice, reactsTo := some otherEventId, key := "✅" }

/-- A qualifying join by a given user in `cfg0`'s room; the repost send (if
one fires) returns event id `eid`. -/
def joinEv (u : String) (eid : String) : Event :=
  .member roomR { sender := u, membership := "join", prevMembership := none } (.sent eid)

/-- A plain join by `bob` (previous membership absent). -/
def bobJoinMem : MemberEvent :=
  { sender := bob, membership := "join", prevMembership := none }

/-- Three qualifying joins in a row, for exercising the repost cadence with
threshold 2. -/
def threeJoins : List Event :=
  [joinEv alice eid1, joinEv bob eid1, joinEv alice eid1]

/-- A profile-only member change by `alice`: the event reports membership
"join" while the previous membership was already "join" (e.g. a displayname
or avatar update, which Matrix delivers as an m.room.member event). -/
def profileChangeEv : MemberEvent :=
  { sender := alice, membership := "join", prevMembership := some ("join") }

/-- The empty reaction key. -/
def emptyKey : String := ""

/-- The one-character string holding U+FE0F. -/
def vs16Str : String := ⟨[vs16]⟩

/-- The one-character string holding U+FE0E. -/
def vs15Str : String := ⟨[vs15]⟩

end Gatekeeper

namespace Gatekeeper

theorem subset_setInsert (x : String) (l : List String) : l ⊆ setInsert x l := by
  unfold setInsert
  split
  · exact fun _ h => h
  · exact List.subset_cons_self x l

theorem mem_setInsert_self (x : String) (l : List String) : x ∈ setInsert x l := by
  unfold setInsert
  split
  · assumption
  · exact List.mem_cons_self x l

theorem post_rules_preserves (cfg : Config) (st : GKState) (o : SendOutcome) :
    (post_rules cfg st o).1.invitedUsers = st.invitedUsers ∧
    (post_rules cfg st o).1.welcomedUsers = st.welcomedUsers ∧
    (post_rules cfg st o).1.joinCount = st.joinCount ∧
    (post_rules cfg st o).1.initialSyncDone = st.initialSyncDone ∧
    st.rulesEventIds ⊆ (post_rules cfg st o).1.rulesEventIds := by
  unfold post_rules
  split
  · exact ⟨rfl, rfl, rfl, rfl, fun _ h => h⟩
  · cases o
    · exact ⟨rfl, rfl, rfl, rfl, subset_setInsert _ _⟩
    · exact ⟨rfl, rfl, rfl, rfl, fun _ h => h⟩

theorem send_welcome_dm_preserves (cfg : Config) (st : GKState) (u : String) :
    (send_welcome_dm cfg st u).1.invitedUsers = st.invitedUsers ∧
    (send_welcome_dm cfg st u).1.rulesEventIds = st.rulesEventIds ∧
    (send_welcome_dm cfg st u).1.joinCount = st.joinCount ∧
    (send_welcome_dm cfg st u).1.initialSyncDone = st.initialSyncDone := by
  unfold send_welcome_dm
  split_ifs <;> exact ⟨rfl, rfl, rfl, rfl⟩

theorem handle_invite_preserves (cfg : Config) (st : GKState) (u : String)
    (o : InviteOutcome) :
    (handle_invite cfg st u o).1.welcomedUsers = st.welcomedUsers ∧
    (handle_invite cfg st u o).1.rulesEventIds = st.rulesEventIds ∧
    (handle_invite cfg st u o).1.joinCount = st.joinCount ∧
    (handle_invite cfg st u o).1.initialSyncDone = st.initialSyncDone ∧
    st.invitedUsers ⊆ (handle_invite cfg st u o).1.invitedUsers := by
  unfold handle_invite
  split_ifs with h1 h2
  · exact ⟨rfl, rfl, rfl, rfl, fun _ h => h⟩
  · exact ⟨rfl, rfl, rfl, rfl, fun _ h => h⟩
  · cases o with
    | returned m => exact ⟨rfl, rfl, rfl, rfl, subset_setInsert _ _⟩
    | raised msg =>
        dsimp only
        split
        · exact ⟨rfl, rfl, rfl, rfl, subset_setInsert _ _⟩
        · exact ⟨rfl, rfl, rfl, rfl, fun _ h => h⟩

theorem handle_invite_already (cfg : Config) (st : GKState) (u : String)
    (o : InviteOutcome) (h : u ∈ st.invitedUsers) :
    handle_invite cfg st u o = (st, []) := by
  unfold handle_invite
  split_ifs with h1
  · rfl
  · rfl

theorem member_join_body_spec (cfg : Config) (st : GKState) (ev : MemberEvent)
    (o : SendOutcome) :
    (member_join_body cfg st ev o).1.invitedUsers = st.invitedUsers ∧
    (member_join_body cfg st ev o).1.initialSyncDone = st.initialSyncDone ∧
    st.rulesEventIds ⊆ (member_join_body cfg st ev o).1.rulesEventIds ∧
    (member_join_body cfg st ev o).1.joinCount =
      (if st.joinCount + 1 ≥ cfg.repostEveryNJoins then 0 else st.joinCount + 1) := by
  unfold member_join_body
  dsimp only
  split
  case isTrue h =>
    obtain ⟨w1, w2, w3, w4⟩ :=
      send_welcome_dm_preserves cfg (post_rules cfg { st with joinCount := 0 } o).1 ev.sender
    obtain ⟨p1, p2, p3, p4, p5⟩ := post_rules_preserves cfg { st with joinCount := 0 } o
    refine ⟨?_, ?_, ?_, ?_⟩
    · rw [w1, p1]
    · rw [w4, p4]
    · rw [w2]; exact p5
    · rw [w3, p3]
  case isFalse h =>
    obtain ⟨w1, w2, w3, w4⟩ :=
      send_welcome_dm_preserves cfg { st with joinCount := st.joinCount + 1 } ev.sender
    refine ⟨?_, ?_, ?_, ?_⟩
    · rw [w1]
    · rw [w4]
    · rw [w2]; exact fun _ h => h
    · rw [w3]

theorem on_member_event_eq (cfg : Config) (st : GKState) (roomId : String)
    (ev : MemberEvent) (o : SendOutcome) :
    on_member_event cfg st roomId ev o
      = if st.initialSyncDone = true ∧ roomId = cfg.targetRoomId ∧
           ev.membership = "join" ∧ ev.sender ≠ cfg.botUserId
        then member_join_body cfg st ev o
        else (st, []) := by
  unfold on_member_event
  by_cases h1 : st.initialSyncDone = true <;>
    by_cases h2 : roomId = cfg.targetRoomId <;>
      by_cases h3 : ev.membership = "join" <;>
        by_cases h4 : ev.sender = cfg.botUserId <;>
          simp [h1, h2, h3, h4]

end Gatekeeper
namespace Gatekeeper

theorem on_reaction_event_split (cfg : Config) (st : GKState) (roomId : String)
    (ev : ReactionEvent) (inv : InviteOutcome) :
    on_reaction_event cfg st roomId ev inv = (st, []) ∨
    on_reaction_event cfg st roomId ev inv = handle_invite cfg st ev.sender inv := by
  unfold on_reaction_event
  split
  · exact Or.inl rfl
  · cases hr : ev.reactsTo with
    | none => exact Or.inl rfl
    | some t =>
        try dsimp only
        split
        · exact Or.inl rfl
        · split
          · exact Or.inl rfl
          · exact Or.inr rfl

theorem on_unknown_event_split (cfg : Config) (st : GKState) (roomId : String)
    (ev : UnknownEvent) (inv : InviteOutcome) :
    on_unknown_event cfg st roomId ev inv = (st, []) ∨
    on_unknown_event cfg st roomId ev inv = handle_invite cfg st ev.sender inv := by
  unfold on_unknown_event
  split
  · exact Or.inl rfl
  · split
    · exact Or.inl rfl
    · cases hr : ev.relatesToEventId with
      | none => exact Or.inl rfl
      | some t =>
          try dsimp only
          split
          · exact Or.inl rfl
          · try dsimp only
            split
            · exact Or.inl rfl
            · exact Or.inr rfl

theorem on_reaction_event_not_tracked (cfg : Config) (st : GKState) (roomId : String)
    (ev : ReactionEvent) (inv : InviteOutcome)
    (h : ∀ t, ev.reactsTo = some t → t ∉ st.rulesEventIds) :
    on_reaction_event cfg st roomId ev inv = (st, []) := by
  unfold on_reaction_event
  split
  · rfl
  · cases hr : ev.reactsTo with
    | none => rfl
    | some t =>
        try dsimp only
        rw [if_pos (h t hr)]

theorem on_unknown_event_not_tracked (cfg : Config) (st : GKState) (roomId : String)
    (ev : UnknownEvent) (inv : InviteOutcome)
    (h : ∀ t, ev.relatesToEventId = some t → t ∉ st.rulesEventIds) :
    on_unknown_event cfg st roomId ev inv = (st, []) := by
  unfold on_unknown_event
  split
  · rfl
  · split
    · rfl
    · cases hr : ev.relatesToEventId with
      | none => rfl
      | some t =>
          try dsimp only
          rw [if_pos (h t hr)]

theorem step_preserves (cfg : Config) (st : GKState) (e : Event) :
    st.invitedUsers ⊆ ((step cfg st e).1).invitedUsers ∧
    st.rulesEventIds ⊆ ((step cfg st e).1).rulesEventIds := by
  cases e with
  | member roomId ev o =>
      show st.invitedUsers ⊆ (on_member_event cfg st roomId ev o).1.invitedUsers ∧
        st.rulesEventIds ⊆ (on_member_event cfg st roomId ev o).1.rulesEventIds
      rw [on_member_event_eq]
      split
      · obtain ⟨m1, m2, m3, m4⟩ := member_join_body_spec cfg st ev o
        exact ⟨m1 ▸ fun _ h => h, m3⟩
      · exact ⟨fun _ h => h, fun _ h => h⟩
  | reaction roomId ev inv =>
      show st.invitedUsers ⊆ (on_reaction_event cfg st roomId ev inv).1.invitedUsers ∧
        st.rulesEventIds ⊆ (on_reaction_event cfg st roomId ev inv).1.rulesEventIds
      rcases on_reaction_event_split cfg st roomId ev inv with h | h <;> rw [h]
      · exact ⟨fun _ h => h, fun _ h => h⟩
      · obtain ⟨_, r2, _, _, r5⟩ := handle_invite_preserves cfg st ev.sender inv
        exact ⟨r5, r2 ▸ fun _ h => h⟩
  | unknown roomId ev inv =>
      show st.invitedUsers ⊆ (on_unknown_event cfg st roomId ev inv).1.invitedUsers ∧
        st.rulesEventIds ⊆ (on_unknown_event cfg st roomId ev inv).1.rulesEventIds
      rcases on_unknown_event_split cfg st roomId ev inv with h | h <;> rw [h]
      · exact ⟨fun _ h => h, fun _ h => h⟩
      · obtain ⟨_, r2, _, _, r5⟩ := handle_invite_preserves cfg st ev.sender inv
        exact ⟨r5, r2 ▸ fun _ h => h⟩
  | syncComplete => exact ⟨fun _ h => h, fun _ h => h⟩

theorem run_preserves (cfg : Config) (evs : List Event) (st : GKState) :
    st.invitedUsers ⊆ ((run cfg st evs).1).invitedUsers ∧
    st.rulesEventIds ⊆ ((run cfg st evs).1).rulesEventIds := by
  induction evs generalizing st with
  | nil => exact ⟨fun _ h => h, fun _ h => h⟩
  | cons e rest ih =>
      obtain ⟨s1, s2⟩ := step_preserves cfg st e
      obtain ⟨r1, r2⟩ := ih (step cfg st e).1
      exact ⟨fun _ h => r1 (s1 h), fun _ h => r2 (s2 h)⟩

end Gatekeeper
namespace Gatekeeper

/-- C7: `is_checkmark` is a total Boolean function on strings that strips all
occurrences of U+FE0E and U+FE0F from the code-point sequence and returns
true exactly when the remainder is one of the three canonical glyphs U+2705,
U+2714, U+2611; every other input, including the empty string, yields
false. -/
theorem C7_classifier_exact (s : String) :
    (is_checkmark s = true ↔
      ((s.data.filter (fun c => c != vs15)).filter (fun c => c != vs16) = ['✅'] ∨
       (s.data.filter (fun c => c != vs15)).filter (fun c => c != vs16) = ['✔'] ∨
       (s.data.filter (fun c => c != vs15)).filter (fun c => c != vs16) = ['☑'])) ∧
    is_checkmark emptyKey = false := by
  constructor
  · simp only [is_checkmark, Bool.or_eq_true, beq_iff_eq]
    exact or_assoc
  · decide

/-- C8: appending either variation selector (U+FE0F or U+FE0E) to any string
never changes the classification result of `is_checkmark`. -/
theorem C8_variation_selector_invariant (s : String) :
    is_checkmark (s ++ vs16Str) = is_checkmark s ∧
    is_checkmark (s ++ vs15Str) = is_checkmark s := by
  have hdata : ∀ t u : String, (t ++ u).data = t.data ++ u.data := fun t u => rfl
  refine ⟨?_, ?_⟩
  · simp +decide [is_checkmark, vs15Str, vs16Str, vs15, vs16, hdata, List.filter_append]
  · simp +decide [is_checkmark, vs15Str, vs16Str, vs15, vs16, hdata, List.filter_append]

/-- C9: the structured reaction handler and the untyped fallback handler are
behaviorally equivalent: an `UnknownEvent` of type `m.reaction` carrying the
same {actor, target-message id, reaction key} payload as a `ReactionEvent`
produces the same state and the same actions. -/
theorem C9_fallback_equivalence (cfg : Config) (st : GKState) (roomId sender : String)
    (target : Option String) (key : String) (inv : InviteOutcome) :
    on_unknown_event cfg st roomId
        { type := "m.reaction", sender := sender, relatesToEventId := target,
          relatesToKey := some key } inv
      = on_reaction_event cfg st roomId
          { sender := sender, reactsTo := target, key := key } inv := by
  unfold on_unknown_event on_reaction_event
  by_cases h1 : roomId ≠ cfg.targetRoomId
  · rw [if_pos h1, if_pos h1]
  · rw [if_neg h1, if_neg h1, if_neg (by simp : ¬("m.reaction" : String) ≠ "m.reaction")]

/-- C10: reaction handling does not consult the catch-up flag: from the
initial state (before `initial_sync_done` is set), a checkmark reaction on
the tracked rules message from a non-bot, not-yet-invited user triggers an
invite transport call. -/
theorem C10_reaction_during_catchup :
    (initState cfg0).initialSyncDone = false ∧
    alice ∉ (initState cfg0).invitedUsers ∧
    alice ≠ cfg0.botUserId ∧
    countInvites alice (run cfg0 (initState cfg0) [aliceReact (.returned none)]).2 = 1 := by
  decide

/-- C4 counterexample: a profile-only membership change — an m.room.member
event reporting membership "join" whose previous membership is already
"join" — still increments the join counter and still triggers the welcome
action, contradicting the claim that profile-only changes do not qualify. -/
theorem C4_counterexample :
    profileChangeEv.membership = "join" ∧
    profileChangeEv.prevMembership = some ("join") ∧
    (on_member_event cfg0 st_synced roomR profileChangeEv .failed).1.joinCount
      = st_synced.joinCount + 1 ∧
    (on_member_event cfg0 st_synced roomR profileChangeEv .failed).2
      = [Action.welcomeDM alice] := by
  decide

/-- C4 (amended): a membership event takes the counting/welcome/repost path
iff it arrives after the initial catch-up sync, originates in the gated
room, reports membership state "joined", and is not authored by the bot —
with no condition on the previous membership, so profile-only changes that
re-report "join" also qualify; on that path the counter is incremented, or
reset to zero when it reaches the threshold. -/
theorem C4_qualifying_join_characterization (cfg : Config) (st : GKState)
    (roomId : String) (ev : MemberEvent) (o : SendOutcome) :
    (on_member_event cfg st roomId ev o
      = if st.initialSyncDone = true ∧ roomId = cfg.targetRoomId ∧
           ev.membership = "join" ∧ ev.sender ≠ cfg.botUserId
        then member_join_body cfg st ev o
        else (st, [])) ∧
    (member_join_body cfg st ev o).1.joinCount
      = (if st.joinCount + 1 ≥ cfg.repostEveryNJoins then 0 else st.joinCount + 1) :=
  ⟨on_member_event_eq cfg st roomId ev o, (member_join_body_spec cfg st ev o).2.2.2⟩

end Gatekeeper
namespace Gatekeeper

/-- C5: the tracked-message set starts as the singleton of the configured
identifier, only ever grows (per step and over any run), and a reaction —
structured or fallback — whose target id is not currently tracked leaves
the state unchanged and issues no action at all (in particular no invite),
whatever its key. -/
theorem C5_tracked_message_set (cfg : Config) (st : GKState) :
    ((initState cfg).rulesEventIds = [cfg.targetEventId]) ∧
    (∀ e : Event, st.rulesEventIds ⊆ ((step cfg st e).1).rulesEventIds) ∧
    (∀ evs : List Event, st.rulesEventIds ⊆ ((run cfg st evs).1).rulesEventIds) ∧
    (∀ (roomId : String) (ev : ReactionEvent) (inv : InviteOutcome),
        (∀ t, ev.reactsTo = some t → t ∉ st.rulesEventIds) →
        step cfg st (.reaction roomId ev inv) = (st, [])) ∧
    (∀ (roomId : String) (ev : UnknownEvent) (inv : InviteOutcome),
        (∀ t, ev.relatesToEventId = some t → t ∉ st.rulesEventIds) →
        step cfg st (.unknown roomId ev inv) = (st, [])) :=
  ⟨rfl, fun e => (step_preserves cfg st e).2, fun evs => (run_preserves cfg evs st).2,
   fun roomId ev inv h => on_reaction_event_not_tracked cfg st roomId ev inv h,
   fun roomId ev inv h => on_unknown_event_not_tracked cfg st roomId ev inv h⟩

theorem C5_tracked_message_set_witness :
    (∀ t, untrackedReact.reactsTo = some t → t ∉ st_synced.rulesEventIds) ∧
    step cfg0 st_synced (.reaction roomR untrackedReact (.returned none)) = (st_synced, []) := by
  have h : ∀ t, untrackedReact.reactsTo = some t → t ∉ st_synced.rulesEventIds := by
    intro t ht
    simp only [untrackedReact, Option.some.injEq] at ht
    subst ht
    decide
  exact ⟨h, (C5_tracked_message_set cfg0 st_synced).2.2.2.1 roomR untrackedReact
    (.returned none) h⟩

theorem member_join_body_welcome (cfg : Config) (st : GKState) (ev : MemberEvent)
    (o : SendOutcome) (hb : ev.sender ≠ cfg.botUserId)
    (hw : ev.sender ∉ st.welcomedUsers) (ht : cfg.welcomeText ≠ "") :
    Action.welcomeDM ev.sender ∈ (member_join_body cfg st ev o).2 := by
  have hsw : ∀ st' : GKState, ev.sender ∉ st'.welcomedUsers →
      (send_welcome_dm cfg st' ev.sender).2 = [Action.welcomeDM ev.sender] := by
    intro st' h'
    unfold send_welcome_dm
    rw [if_neg hb, if_neg h', if_neg ht]
  unfold member_join_body
  dsimp only
  split
  · have hmem : ev.sender ∉ (post_rules cfg { st with joinCount := 0 } o).1.welcomedUsers := by
      rw [(post_rules_preserves cfg { st with joinCount := 0 } o).2.1]
      exact hw
    rw [hsw _ hmem]
    exact List.mem_append_right _ (List.mem_cons_self _ _)
  · dsimp only
    have hmem2 : ev.sender ∉ ({ st with joinCount := st.joinCount + 1 } : GKState).welcomedUsers := hw
    rw [hsw _ hmem2]
    exact List.mem_append_right _ (List.mem_cons_self _ _)

/-- C6: a member event delivered during the initial full-state catch-up
(before `initial_sync_done` is set) leaves the state untouched — in
particular the join counter is unchanged and no welcome DM is issued; after
catch-up, a qualifying join increments the counter (resetting it at the
threshold), and triggers the welcome DM whenever the sender is not yet
welcomed and welcome content is configured. -/
theorem C6_catchup_gating (cfg : Config) (st : GKState) (roomId : String)
    (ev : MemberEvent) (o : SendOutcome) :
    (st.initialSyncDone = false → step cfg st (.member roomId ev o) = (st, [])) ∧
    (st.initialSyncDone = true → roomId = cfg.targetRoomId → ev.membership = "join" →
      ev.sender ≠ cfg.botUserId →
      ((step cfg st (.member roomId ev o)).1.joinCount
          = (if st.joinCount + 1 ≥ cfg.repostEveryNJoins then 0 else st.joinCount + 1)) ∧
      (ev.sender ∉ st.welcomedUsers → cfg.welcomeText ≠ "" →
        Action.welcomeDM ev.sender ∈ (step cfg st (.member roomId ev o)).2)) := by
  constructor
  · intro hs
    show on_member_event cfg st roomId ev o = (st, [])
    rw [on_member_event_eq, if_neg]
    simp [hs]
  · intro hs hr hm hb
    have heq : on_member_event cfg st roomId ev o = member_join_body cfg st ev o := by
      rw [on_member_event_eq, if_pos ⟨hs, hr, hm, hb⟩]
    constructor
    · show (on_member_event cfg st roomId ev o).1.joinCount = _
      rw [heq]
      exact (member_join_body_spec cfg st ev o).2.2.2
    · intro hw ht
      show Action.welcomeDM ev.sender ∈ (on_member_event cfg st roomId ev o).2
      rw [heq]
      exact member_join_body_welcome cfg st ev o hb hw ht

theorem C6_catchup_gating_witness :
    (initState cfg0).initialSyncDone = false ∧
    step cfg0 (initState cfg0) (.member roomR bobJoinMem (.sent eid1)) = (initState cfg0, []) :=
  ⟨rfl, (C6_catchup_gating cfg0 (initState cfg0) roomR bobJoinMem (.sent eid1)).1 rfl⟩

/-- C2 counterexample to "at most one invite attempt per user for the
process lifetime": if the first invite attempt fails with an exception not
mentioning "already in the room", the user is left un-ledgered, and a second
acceptance reaction triggers a second invite transport call. -/
theorem C2_counterexample :
    countInvites alice (run cfg0 (initState cfg0)
      [Event.syncComplete, aliceReact (.raised timeoutMsg), aliceReact (.returned none)]).2
      = 2 := by
  decide

/-- C2 (amended): membership in the invited ledger is monotone — never
removed by any step or run — and once a user is in it, any further reaction
event (structured or fallback) from that user leaves the state unchanged
and emits no action at all: no invite transport call and no tips DM. (At
most one successful, i.e. ledgered, invite per user; a failed attempt is
deliberately retryable, so the total number of invite calls can exceed
one.) -/
theorem C2_invited_monotone_idempotent (cfg : Config) (st : GKState) :
    (∀ e : Event, st.invitedUsers ⊆ ((step cfg st e).1).invitedUsers) ∧
    (∀ evs : List Event, st.invitedUsers ⊆ ((run cfg st evs).1).invitedUsers) ∧
    (∀ (roomId : String) (ev : ReactionEvent) (inv : InviteOutcome),
        ev.sender ∈ st.invitedUsers → step cfg st (.reaction roomId ev inv) = (st, [])) ∧
    (∀ (roomId : String) (ev : UnknownEvent) (inv : InviteOutcome),
        ev.sender ∈ st.invitedUsers → step cfg st (.unknown roomId ev inv) = (st, [])) := by
  refine ⟨fun e => (step_preserves cfg st e).1, fun evs => (run_preserves cfg evs st).1, ?_, ?_⟩
  · intro roomId ev inv hmem
    rcases on_reaction_event_split cfg st roomId ev inv with h | h
    · exact h
    · show on_reaction_event cfg st roomId ev inv = (st, [])
      rw [h]
      exact handle_invite_already cfg st ev.sender inv hmem
  · intro roomId ev inv hmem
    rcases on_unknown_event_split cfg st roomId ev inv with h | h
    · exact h
    · show on_unknown_event cfg st roomId ev inv = (st, [])
      rw [h]
      exact handle_invite_already cfg st ev.sender inv hmem

theorem C2_invited_monotone_idempotent_witness :
    alice ∈ stInvited.invitedUsers ∧
    step cfg0 stInvited (.reaction roomR aliceReactEv (.returned none)) = (stInvited, []) :=
  ⟨by decide, (C2_invited_monotone_idempotent cfg0 stInvited).2.2.1 roomR aliceReactEv
    (.returned none) (by decide)⟩

/-- C1 counterexample: an invite failure surfaced as a returned nio error
response (an object with a `message` attribute, e.g. an M_FORBIDDEN
rejection) is *not* an "already present" outcome, yet the user is still
added to the invited set — contradicting the claim that any failure other
than "user already present" leaves the user un-ledgered. -/
theorem C1_counterexample :
    substrOf alreadyInRoomNeedle (pyLower forbiddenMsg).data = false ∧
    alice ∈ (handle_invite cfg0 st_synced alice (.returned (some forbiddenMsg))).1.invitedUsers := by
  decide

/-- C1 (amended): for a non-bot, not-yet-invited user, an invite outcome
raised as an exception whose text does not contain "already in the room"
leaves the user out of the invited set (only the invite call is emitted, no
tips DM), so a later duplicate reaction can retry; an exception that does
contain "already in the room" is treated as success and the user is
ledgered; and any outcome returned as a response object — success or error
response alike — also ledgers the user. -/
theorem C1_invite_failure_ledgering (cfg : Config) (st : GKState) (u : String)
    (msg : String) (hbot : u ≠ cfg.botUserId) (hnot : u ∉ st.invitedUsers) :
    (substrOf alreadyInRoomNeedle (pyLower msg).data = false →
        handle_invite cfg st u (.raised msg) = (st, [.inviteCall u])) ∧
    (substrOf alreadyInRoomNeedle (pyLower msg).data = true →
        u ∈ (handle_invite cfg st u (.raised msg)).1.invitedUsers) ∧
    (∀ m : Option String, u ∈ (handle_invite cfg st u (.returned m)).1.invitedUsers) := by
  refine ⟨?_, ?_, ?_⟩
  · intro hf
    unfold handle_invite
    rw [if_neg hbot, if_neg hnot]
    dsimp only
    rw [hf]
    simp
  · intro htr
    unfold handle_invite
    rw [if_neg hbot, if_neg hnot]
    dsimp only
    rw [htr]
    simpa using mem_setInsert_self u st.invitedUsers
  · intro m
    unfold handle_invite
    rw [if_neg hbot, if_neg hnot]
    exact mem_setInsert_self u st.invitedUsers

theorem C1_invite_failure_ledgering_witness :
    alice ≠ cfg0.botUserId ∧ alice ∉ st_synced.invitedUsers ∧
    substrOf alreadyInRoomNeedle (pyLower timeoutMsg).data = false ∧
    handle_invite cfg0 st_synced alice (.raised timeoutMsg)
      = (st_synced, [.inviteCall alice]) := by
  have h1 : alice ≠ cfg0.botUserId := by decide
  have h2 : alice ∉ st_synced.invitedUsers := by decide
  have h3 : substrOf alreadyInRoomNeedle (pyLower timeoutMsg).data = false := by decide
  exact ⟨h1, h2, h3, (C1_invite_failure_ledgering cfg0 st_synced alice timeoutMsg h1 h2).1 h3⟩

end Gatekeeper
namespace Gatekeeper

theorem run_cons (cfg : Config) (st : GKState) (e : Event) (rest : List Event) :
    run cfg st (e :: rest)
      = ((run cfg (step cfg st e).1 rest).1,
         (step cfg st e).2 ++ (run cfg (step cfg st e).1 rest).2) := rfl

theorem countReposts_append (a b : List Action) :
    countReposts (a ++ b) = countReposts a + countReposts b :=
  List.countP_append _ a b

theorem post_rules_acts (cfg : Config) (st : GKState) (o : SendOutcome)
    (hR : cfg.rulesText ≠ "") : (post_rules cfg st o).2 = [Action.repostRules] := by
  unfold post_rules
  rw [if_neg hR]
  cases o <;> rfl

theorem send_welcome_dm_acts (cfg : Config) (st : GKState) (u : String) :
    countReposts (send_welcome_dm cfg st u).2 = 0 := by
  unfold send_welcome_dm
  split_ifs <;> rfl

theorem member_join_body_counts (cfg : Config) (st : GKState) (ev : MemberEvent)
    (o : SendOutcome) (hR : cfg.rulesText ≠ "") :
    countReposts (member_join_body cfg st ev o).2
      = (if st.joinCount + 1 ≥ cfg.repostEveryNJoins then 1 else 0) := by
  unfold member_join_body
  dsimp only
  split
  · rw [countReposts_append, post_rules_acts cfg _ o hR, send_welcome_dm_acts]
    rfl
  · rw [countReposts_append, send_welcome_dm_acts]
    rfl

theorem run_qualifying_joins (cfg : Config) (hT : 0 < cfg.repostEveryNJoins)
    (hR : cfg.rulesText ≠ "") :
    ∀ (evs : List Event) (st : GKState), (∀ e ∈ evs, qualifyingJoin cfg e) →
      st.initialSyncDone = true → 0 ≤ st.joinCount →
      st.joinCount < cfg.repostEveryNJoins →
      (run cfg st evs).1.joinCount
          = (st.joinCount + evs.length) % cfg.repostEveryNJoins ∧
      countReposts (run cfg st evs).2
          = ((st.joinCount + evs.length) / cfg.repostEveryNJoins).toNat := by
  intro evs
  induction evs with
  | nil =>
      intro st _ hs h0 hlt
      constructor
      · show st.joinCount = _
        simp [Int.emod_eq_of_lt h0 hlt]
      · show countReposts [] = _
        simp [Int.ediv_eq_zero_of_lt h0 hlt, countReposts]
  | cons e rest ih =>
      intro st hq hs h0 hlt
      cases e with
      | syncComplete => exact (hq _ (List.mem_cons_self _ _)).elim
      | reaction roomId rev inv => exact (hq _ (List.mem_cons_self _ _)).elim
      | unknown roomId uev inv => exact (hq _ (List.mem_cons_self _ _)).elim
      | member roomId mev o =>
          obtain ⟨hroom, hmem, hbot⟩ := hq _ (List.mem_cons_self _ _)
          have hqr : ∀ x ∈ rest, qualifyingJoin cfg x :=
            fun x hx => hq x (List.mem_cons_of_mem _ hx)
          have hstep : step cfg st (.member roomId mev o) = member_join_body cfg st mev o := by
            show on_member_event cfg st roomId mev o = _
            rw [on_member_event_eq, if_pos ⟨hs, hroom, hmem, hbot⟩]
          obtain ⟨b1, b2, b3, b4⟩ := member_join_body_spec cfg st mev o
          have hsync : (member_join_body cfg st mev o).1.initialSyncDone = true := by
            rw [b2, hs]
          rw [run_cons, hstep]
          dsimp only
          by_cases hth : st.joinCount + 1 ≥ cfg.repostEveryNJoins
          · have hcount : (member_join_body cfg st mev o).1.joinCount = 0 := by
              rw [b4, if_pos hth]
            have h0' : 0 ≤ (member_join_body cfg st mev o).1.joinCount := by
              rw [hcount]
            have hlt' : (member_join_body cfg st mev o).1.joinCount < cfg.repostEveryNJoins := by
              rw [hcount]; exact hT
            obtain ⟨ih1, ih2⟩ := ih (member_join_body cfg st mev o).1 hqr hsync h0' hlt'
            have harg : st.joinCount + (((Event.member roomId mev o) :: rest).length : Int)
                = (rest.length : Int) + cfg.repostEveryNJoins := by
              simp only [List.length_cons]
              push_cast
              omega
            have hmod : ((rest.length : Int) + cfg.repostEveryNJoins) % cfg.repostEveryNJoins
                = (rest.length : Int) % cfg.repostEveryNJoins := by
              simp
            refine ⟨?_, ?_⟩
            · rw [harg, ih1, hcount, zero_add, hmod]
            · have hdiv : ((rest.length : Int) + cfg.repostEveryNJoins) / cfg.repostEveryNJoins
                  = (rest.length : Int) / cfg.repostEveryNJoins + 1 := by
                simpa using Int.add_mul_ediv_left (rest.length : Int) 1 (ne_of_gt hT)
              have hnn : 0 ≤ (rest.length : Int) / cfg.repostEveryNJoins :=
                Int.ediv_nonneg (Int.natCast_nonneg _) (le_of_lt hT)
              rw [countReposts_append, member_join_body_counts cfg st mev o hR, if_pos hth,
                ih2, hcount, zero_add, harg, hdiv, Int.toNat_add hnn (by norm_num)]
              omega
          · have hcount : (member_join_body cfg st mev o).1.joinCount = st.joinCount + 1 := by
              rw [b4, if_neg hth]
            have h0' : 0 ≤ (member_join_body cfg st mev o).1.joinCount := by
              rw [hcount]; omega
            have hlt' : (member_join_body cfg st mev o).1.joinCount < cfg.repostEveryNJoins := by
              rw [hcount]; omega
            obtain ⟨ih1, ih2⟩ := ih (member_join_body cfg st mev o).1 hqr hsync h0' hlt'
            have harg : st.joinCount + (((Event.member roomId mev o) :: rest).length : Int)
                = (st.joinCount + 1) + (rest.length : Int) := by
              simp only [List.length_cons]
              push_cast
              omega
            refine ⟨?_, ?_⟩
            · rw [harg, ih1, hcount]
            · rw [countReposts_append, member_join_body_counts cfg st mev o hR, if_neg hth,
                ih2, hcount, harg]
              omega

/-- C3: with a positive threshold T and rules content configured, processing
any sequence of N qualifying joins from a zero counter after catch-up makes
the repost action fire exactly floor(N / T) times and leaves the join
counter at N mod T (the counter is reset to zero whenever it reaches T). -/
theorem C3_repost_cadence (cfg : Config) (evs : List Event)
    (hT : 0 < cfg.repostEveryNJoins) (hR : cfg.rulesText ≠ "")
    (hq : ∀ e ∈ evs, qualifyingJoin cfg e) (st : GKState)
    (hs : st.initialSyncDone = true) (hc : st.joinCount = 0) :
    (run cfg st evs).1.joinCount = (evs.length : Int) % cfg.repostEveryNJoins ∧
    countReposts (run cfg st evs).2
      = ((evs.length : Int) / cfg.repostEveryNJoins).toNat := by
  obtain ⟨h1, h2⟩ := run_qualifying_joins cfg hT hR evs st hq hs (by omega) (by omega)
  constructor
  · rw [h1, hc, zero_add]
  · rw [h2, hc, zero_add]

theorem C3_repost_cadence_witness :
    0 < cfgT2.repostEveryNJoins ∧ cfgT2.rulesText ≠ "" ∧
    (∀ e ∈ threeJoins, qualifyingJoin cfgT2 e) ∧
    st_synced.initialSyncDone = true ∧ st_synced.joinCount = 0 ∧
    (run cfgT2 st_synced threeJoins).1.joinCount
        = ((threeJoins.length : Int) % cfgT2.repostEveryNJoins) ∧
    countReposts (run cfgT2 st_synced threeJoins).2
        = ((threeJoins.length : Int) / cfgT2.repostEveryNJoins).toNat := by
  have hT : 0 < cfgT2.repostEveryNJoins := by decide
  have hR : cfgT2.rulesText ≠ "" := by decide
  have hq : ∀ e ∈ threeJoins, qualifyingJoin cfgT2 e := by
    intro e he
    simp only [threeJoins, List.mem_cons, List.not_mem_nil, or_false] at he
    rcases he with rfl | rfl | rfl <;> exact ⟨rfl, rfl, by decide⟩
  obtain ⟨h1, h2⟩ := C3_repost_cadence cfgT2 threeJoins hT hR hq st_synced rfl rfl
  exact ⟨hT, hR, hq, rfl, rfl, h1, h2⟩

end Gatekeeper
